import Mathlib

/-!
Verification of the technical-analysis prediction engine
(`server/routes/predict.ts`): indicator library (RSI, SMA, Bollinger
Bands), feature extraction, signal scoring, synthetic series generation,
the bounded in-memory cache, and the request handler.

Numbers are modelled by `ℚ` (the source uses IEEE doubles; all the
operations involved except the Bollinger square root are exact on the
rationals appearing here).  `Math.sqrt` is modelled by `Real.sqrt`.
JavaScript `Math.round` and `Number.toFixed` round half-up, which is
Mathlib's `round` (`⌊x + 1/2⌋`).
-/

namespace StockPredict

/-- JavaScript `xs.slice(-n)`: the last `n` elements (for `n = 0` the whole
list, as JS `-0` is `0`; for `n ≥ xs.length` the whole list). -/
def sliceNeg {α : Type*} (xs : List α) (n : ℕ) : List α :=
  if n = 0 then xs else xs.drop (xs.length - n)

/-- `Number(q.toFixed(2))` / `Math.round(q*100)/100`. -/
def round2 (q : ℚ) : ℚ := (round (q * 100) : ℚ) / 100

/-! ## Indicator library -/

/-- `prices.slice(1).map((price, i) => price - prices[i])`: consecutive
differences. -/
def changesOf (prices : List ℚ) : List ℚ :=
  List.zipWith (fun a b => a - b) (prices.drop 1) prices

/-- `changes.map(change => change > 0 ? change : 0)`. -/
def gainsOf (prices : List ℚ) : List ℚ :=
  (changesOf prices).map (fun c => if 0 < c then c else 0)

/-- `changes.map(change => change < 0 ? -change : 0)`. -/
def lossesOf (prices : List ℚ) : List ℚ :=
  (changesOf prices).map (fun c => if c < 0 then -c else 0)

/-- `gains.slice(-period).reduce((s, g) => s + g, 0) / period`. -/
def avgGain (prices : List ℚ) (period : ℕ) : ℚ :=
  (sliceNeg (gainsOf prices) period).sum / period

/-- `losses.slice(-period).reduce((s, l) => s + l, 0) / period`. -/
def avgLoss (prices : List ℚ) (period : ℕ) : ℚ :=
  (sliceNeg (lossesOf prices) period).sum / period

/-- `calculateRSI` from `predict.ts` (period is 14 at every call site). -/
def calculateRSI (prices : List ℚ) (period : ℕ) : ℚ :=
  if prices.length < period + 1 then 50
  else if avgLoss prices period = 0 then 100
  else 100 - 100 / (1 + avgGain prices period / avgLoss prices period)

/-- `calculateSMA` from `predict.ts`.  For a list shorter than `period` the
source returns `prices[prices.length - 1]` (for the empty list this is JS
`undefined`; the model returns the junk value `0`, and every statement about
that branch assumes a non-empty list). -/
def calculateSMA (prices : List ℚ) (period : ℕ) : ℚ :=
  if prices.length < period then prices.getLast?.getD 0
  else (sliceNeg prices period).sum / period

/-- The variance computed inside `calculateBollingerBands`:
`recent.reduce((s, p) => s + Math.pow(p - sma, 2), 0) / period`. -/
def bollVariance (prices : List ℚ) (period : ℕ) : ℚ :=
  ((sliceNeg prices period).map
    (fun p => (p - calculateSMA prices period) ^ 2)).sum / period

structure Bands where
  upper : ℝ
  middle : ℝ
  lower : ℝ

/-- `calculateBollingerBands` from `predict.ts` (period is 20 at the call
site). -/
noncomputable def calculateBollingerBands (prices : List ℚ) (period : ℕ) :
    Bands where
  upper := (calculateSMA prices period : ℝ) + 2 * Real.sqrt (bollVariance prices period)
  middle := (calculateSMA prices period : ℝ)
  lower := (calculateSMA prices period : ℝ) - 2 * Real.sqrt (bollVariance prices period)

/-! Spec-side definitions, written from the specification's words, for
comparison with the code-side functions above. -/

/-- Modelled from the spec: the arithmetic mean of the trailing `n`
elements of a list (the spec's description of `sma` for long-enough
input). -/
def trailingMean (xs : List ℚ) (n : ℕ) : ℚ := (xs.reverse.take n).sum / n

/-- Modelled from the spec: the population variance of a list. -/
def popVariance (xs : List ℚ) : ℚ :=
  (xs.map (fun x => (x - xs.sum / xs.length) ^ 2)).sum / xs.length

/-- Modelled from the spec: the population standard deviation of a list. -/
noncomputable def popStdDev (xs : List ℚ) : ℝ := Real.sqrt (popVariance xs)

/-! ## Basic lemmas about the slicing helpers -/

theorem sliceNeg_length_of_le {α : Type*} (xs : List α) {n : ℕ}
    (hn0 : n ≠ 0) (hn : n ≤ xs.length) : (sliceNeg xs n).length = n := by
  unfold sliceNeg
  rw [if_neg hn0]
  simp only [List.length_drop]
  omega

theorem sliceNeg_map {α β : Type*} (f : α → β) (xs : List α) (n : ℕ) :
    sliceNeg (xs.map f) n = (sliceNeg xs n).map f := by
  unfold sliceNeg
  split
  · rfl
  · rw [← List.map_drop, List.length_map]

theorem sliceNeg_eq_reverse_take {α : Type*} (xs : List α) {n : ℕ}
    (hn : n ≠ 0) : sliceNeg xs n = (xs.reverse.take n).reverse := by
  have h := List.rtake_eq_reverse_take_reverse (l := xs) (n := n)
  unfold List.rtake at h
  unfold sliceNeg
  rw [if_neg hn, h]

theorem sum_reverse_take (xs : List ℚ) (n : ℕ) (hn : n ≠ 0) :
    (sliceNeg xs n).sum = (xs.reverse.take n).sum := by
  rw [sliceNeg_eq_reverse_take xs hn, List.sum_reverse]

/-! ## Data model -/

/-- The `StockData` interface: one OHLCV bar.  `date` is modelled as a day
number (the source carries an ISO date string; only ordering matters). -/
structure Bar where
  date : ℤ
  open_ : ℚ
  high : ℚ
  low : ℚ
  close : ℚ
  volume : ℤ
deriving DecidableEq

/-- The `features` record of `PredictionResponse` (`trend`, `volatility`
and `volume_trend` are plain strings in the source). -/
structure Features where
  rsi : ℚ
  trend : String
  volatility : String
  volume_trend : String
deriving DecidableEq

/-- The TypeScript union type `"today" | "tomorrow"`. -/
inductive Timeframe where
  | today
  | tomorrow
deriving DecidableEq

/-- The TypeScript union type `"BUY" | "SELL" | "HOLD"`. -/
inductive Pred where
  | BUY
  | SELL
  | HOLD
deriving DecidableEq

/-! ## Feature extraction (`analyzeStock`) -/

/-- `analyzeStock` from `predict.ts`.  `closes[closes.length-1]` is
modelled by `getLast?.getD 0` (the handler guarantees non-empty data; on
the empty list the chosen junk value leads to the same branch outcomes as
the source's NaN comparisons, which are all false). -/
noncomputable def analyzeStock (stockData : List Bar) : Features :=
  let closes := stockData.map Bar.close
  let volumes := stockData.map (fun d => (d.volume : ℚ))
  let rsi := calculateRSI closes 14
  let sma10 := calculateSMA closes 10
  let sma50 := calculateSMA closes 50
  let trend := if sma10 > sma50 then "BULLISH" else "BEARISH"
  let bb := calculateBollingerBands closes 20
  let currentPrice := closes.getLast?.getD 0
  let volatility :=
    if (currentPrice : ℝ) > bb.upper then "HIGH"
    else if (currentPrice : ℝ) < bb.lower then "LOW"
    else "NORMAL"
  -- volumes.slice(-20, -5): start max(len-20,0), end (exclusive) max(len-5,0)
  let recentVolume := calculateSMA volumes 5
  let olderVolume :=
    calculateSMA ((volumes.take (volumes.length - 5)).drop (volumes.length - 20)) 15
  let volume_trend := if recentVolume > olderVolume then "INCREASING" else "DECREASING"
  { rsi := round2 rsi
    trend := trend
    volatility := volatility
    volume_trend := volume_trend }

/-! ## Signal scorer (`makePrediction`) -/

/-- The RSI branch of `makePrediction`: updates `(score, signals)`. -/
def rsiStep (s : ℚ × ℕ) (f : Features) : ℚ × ℕ :=
  if f.rsi < 30 then (s.1 + 2, s.2 + 1)
  else if f.rsi > 70 then (s.1 - 2, s.2 + 1)
  else if f.rsi < 50 then (s.1 + 1, s.2 + 1)
  else (s.1 - 1, s.2 + 1)

/-- The trend branch of `makePrediction`. -/
def trendStep (s : ℚ × ℕ) (f : Features) : ℚ × ℕ :=
  if f.trend = "BULLISH" then (s.1 + 1, s.2 + 1) else (s.1 - 1, s.2 + 1)

/-- The volume branch of `makePrediction` (fires only for the two
`INCREASING` combinations). -/
def volumeStep (s : ℚ × ℕ) (f : Features) : ℚ × ℕ :=
  if f.volume_trend = "INCREASING" ∧ f.trend = "BULLISH" then (s.1 + 1, s.2 + 1)
  else if f.volume_trend = "INCREASING" ∧ f.trend = "BEARISH" then (s.1 - 1, s.2 + 1)
  else s

/-- The volatility dampening of `makePrediction` (`score *= 0.8`). -/
def volatilityStep (s : ℚ × ℕ) (f : Features) : ℚ × ℕ :=
  if f.volatility = "HIGH" then (s.1 * (8 / 10), s.2) else s

/-- The accumulated `(score, signals)` state of `makePrediction` just
before the confidence computation. -/
def scoreSignals (f : Features) : ℚ × ℕ :=
  volatilityStep (volumeStep (trendStep (rsiStep (0, 0) f) f) f) f

/-- The tail of `makePrediction` from `predict.ts`, operating on the
features extracted by `analyzeStock`: confidence computation, timeframe
adjustment, thresholding, and the rounded percentage. -/
def makePredictionCore (f : Features) (timeframe : Timeframe) : Pred × ℤ :=
  let ss := scoreSignals f
  let maxPossibleScore : ℚ := (ss.2 : ℚ) * 2
  let confidence0 : ℚ := min (|ss.1| / maxPossibleScore) 1
  let confidence : ℚ :=
    if timeframe = Timeframe.today then confidence0 * (8 / 10) else confidence0
  let score : ℚ :=
    if timeframe = Timeframe.today then ss.1 * (9 / 10) else ss.1
  let confidenceThreshold : ℚ :=
    if timeframe = Timeframe.today then 1 / 2 else 6 / 10
  let prediction : Pred :=
    if score > 1 ∧ confidence > confidenceThreshold then Pred.BUY
    else if score < -1 ∧ confidence > confidenceThreshold then Pred.SELL
    else Pred.HOLD
  (prediction, round (confidence * 100))

/-- `makePrediction` from `predict.ts`. -/
noncomputable def makePrediction (stockData : List Bar) (timeframe : Timeframe) :
    Pred × ℤ :=
  makePredictionCore (analyzeStock stockData) timeframe

/-! Spec-side definitions for the scorer pipeline (from the words of the
specification, to be compared with `makePredictionCore`). -/

/-- Modelled from the spec: `confidence = min(|score| / (signals*2), 1)`
before any timeframe adjustment. -/
def baseConfidence (f : Features) : ℚ :=
  min (|(scoreSignals f).1| / (((scoreSignals f).2 : ℚ) * 2)) 1

/-- Modelled from the spec: the score after the "today" adjustment
(`score *= 0.9` for `today`, unchanged for `tomorrow`). -/
def adjScore (f : Features) (tf : Timeframe) : ℚ :=
  if tf = Timeframe.today then (scoreSignals f).1 * (9 / 10) else (scoreSignals f).1

/-- Modelled from the spec: the confidence after the "today" adjustment
(`confidence *= 0.8` for `today`, unchanged for `tomorrow`). -/
def adjConfidence (f : Features) (tf : Timeframe) : ℚ :=
  if tf = Timeframe.today then baseConfidence f * (8 / 10) else baseConfidence f

/-- Modelled from the spec: the confidence threshold, `0.5` for `today`
and `0.6` for `tomorrow`. -/
def confThreshold (tf : Timeframe) : ℚ :=
  if tf = Timeframe.today then 1 / 2 else 6 / 10

/-- Claim C1: for every extracted feature set the scorer applies the
"today" adjustment (confidence times `0.8`, score times `0.9`, only for
the `today` timeframe), then decides with confidence threshold `0.5` for
`today` and `0.6` for `tomorrow`: the prediction is BUY iff the adjusted
score exceeds `1` and the adjusted confidence exceeds the threshold, SELL
iff the adjusted score is below `-1` and the adjusted confidence exceeds
the threshold, and HOLD otherwise; the returned confidence is
`round(confidence * 100)` of the adjusted confidence. -/
theorem decision_chain_iff (s c thr : ℚ) :
    (((if s > 1 ∧ c > thr then Pred.BUY
       else if s < -1 ∧ c > thr then Pred.SELL
       else Pred.HOLD) = Pred.BUY) ↔ (s > 1 ∧ c > thr)) ∧
    (((if s > 1 ∧ c > thr then Pred.BUY
       else if s < -1 ∧ c > thr then Pred.SELL
       else Pred.HOLD) = Pred.SELL) ↔ (s < -1 ∧ c > thr)) ∧
    (((if s > 1 ∧ c > thr then Pred.BUY
       else if s < -1 ∧ c > thr then Pred.SELL
       else Pred.HOLD) = Pred.HOLD) ↔
      (¬(s > 1 ∧ c > thr) ∧ ¬(s < -1 ∧ c > thr))) := by
  split_ifs with h1 h2
  · exact ⟨iff_of_true rfl h1,
      iff_of_false (by simp) (fun hc => by have := h1.1; have := hc.1; linarith),
      iff_of_false (by simp) (fun hc => hc.1 h1)⟩
  · exact ⟨iff_of_false (by simp) h1, iff_of_true rfl h2,
      iff_of_false (by simp) (fun hc => hc.2 h2)⟩
  · exact ⟨iff_of_false (by simp) h1, iff_of_false (by simp) h2,
      iff_of_true rfl ⟨h1, h2⟩⟩

theorem makePrediction_decision_spec (f : Features) (tf : Timeframe) :
    ((makePredictionCore f tf).1 = Pred.BUY ↔
      adjScore f tf > 1 ∧ adjConfidence f tf > confThreshold tf) ∧
    ((makePredictionCore f tf).1 = Pred.SELL ↔
      adjScore f tf < -1 ∧ adjConfidence f tf > confThreshold tf) ∧
    ((makePredictionCore f tf).1 = Pred.HOLD ↔
      ¬(adjScore f tf > 1 ∧ adjConfidence f tf > confThreshold tf) ∧
      ¬(adjScore f tf < -1 ∧ adjConfidence f tf > confThreshold tf)) ∧
    (makePredictionCore f tf).2 = round (adjConfidence f tf * 100) := by
  cases tf
  case today =>
    have h := decision_chain_iff ((scoreSignals f).1 * (9 / 10))
      (min (|(scoreSignals f).1| / (((scoreSignals f).2 : ℚ) * 2)) 1 * (8 / 10)) (1 / 2)
    exact ⟨h.1, h.2.1, h.2.2, rfl⟩
  case tomorrow =>
    have h := decision_chain_iff (scoreSignals f).1
      (min (|(scoreSignals f).1| / (((scoreSignals f).2 : ℚ) * 2)) 1) (6 / 10)
    exact ⟨h.1, h.2.1, h.2.2, rfl⟩

/-- Claim C2: feeding the scorer the extracted feature set
`{rsi: 20, trend: BULLISH, volatility: NORMAL, volumeTrend: INCREASING}`
with timeframe `tomorrow` yields a strictly positive score, at least 3
signals, a confidence exceeding `0.6`, and the prediction BUY. -/
theorem scorer_boundary_buy :
    0 < (scoreSignals ⟨20, "BULLISH", "NORMAL", "INCREASING"⟩).1 ∧
    3 ≤ (scoreSignals ⟨20, "BULLISH", "NORMAL", "INCREASING"⟩).2 ∧
    adjConfidence ⟨20, "BULLISH", "NORMAL", "INCREASING"⟩ Timeframe.tomorrow > 6 / 10 ∧
    (makePredictionCore ⟨20, "BULLISH", "NORMAL", "INCREASING"⟩ Timeframe.tomorrow).1 =
      Pred.BUY := by
  have h1 : scoreSignals ⟨20, "BULLISH", "NORMAL", "INCREASING"⟩ = (4, 3) := by
    norm_num [scoreSignals, volatilityStep, volumeStep, trendStep, rsiStep]
    decide
  have hne : ¬(Timeframe.tomorrow = Timeframe.today) := by decide
  refine ⟨by rw [h1]; norm_num, by rw [h1], ?_, ?_⟩
  · unfold adjConfidence baseConfidence
    rw [h1]
    simp only [if_neg hne]
    norm_num [abs_of_pos, min_def]
  · unfold makePredictionCore
    rw [h1]
    simp only [if_neg hne]
    norm_num [abs_of_pos, min_def]

/-- Claim C3: `calculateRSI` returns `50` when the input is shorter than
`period + 1`; when the input is long enough and the most recent `period`
differences contain no loss it returns `100`; otherwise it returns
`100 - 100/(1 + avgGain/avgLoss)` with `avgGain`/`avgLoss` the simple
averages of the most recent `period` gains and losses. -/
theorem calculateRSI_spec (prices : List ℚ) (period : ℕ) :
    (prices.length < period + 1 → calculateRSI prices period = 50) ∧
    (0 < period → period + 1 ≤ prices.length →
      (∀ c ∈ sliceNeg (changesOf prices) period, 0 ≤ c) →
      calculateRSI prices period = 100) ∧
    (0 < period → period + 1 ≤ prices.length →
      (∃ c ∈ sliceNeg (changesOf prices) period, c < 0) →
      calculateRSI prices period =
        100 - 100 / (1 + avgGain prices period / avgLoss prices period)) := by
  refine ⟨fun h => by rw [calculateRSI, if_pos h], ?_, ?_⟩
  · intro hp hlen hpos
    have hz : avgLoss prices period = 0 := by
      unfold avgLoss lossesOf
      rw [sliceNeg_map]
      rw [List.sum_eq_zero, zero_div]
      intro x hx
      simp only [List.mem_map] at hx
      obtain ⟨c, hc, rfl⟩ := hx
      rw [if_neg (not_lt.mpr (hpos c hc))]
    rw [calculateRSI, if_neg (by omega), if_pos hz]
  · intro hp hlen hneg
    obtain ⟨c, hc, hcneg⟩ := hneg
    have hnn : ∀ x ∈ sliceNeg (lossesOf prices) period, 0 ≤ x := by
      unfold lossesOf
      rw [sliceNeg_map]
      intro x hx
      simp only [List.mem_map] at hx
      obtain ⟨d, _, rfl⟩ := hx
      split
      · linarith
      · exact le_refl 0
    have hmem : -c ∈ sliceNeg (lossesOf prices) period := by
      unfold lossesOf
      rw [sliceNeg_map]
      exact List.mem_map.mpr ⟨c, hc, if_pos hcneg⟩
    have hsum : 0 < (sliceNeg (lossesOf prices) period).sum :=
      lt_of_lt_of_le (by linarith) (List.single_le_sum hnn _ hmem)
    have hno : avgLoss prices period ≠ 0 := by
      unfold avgLoss
      positivity
    rw [calculateRSI, if_neg (by omega), if_neg hno]

/-- Witness for `calculateRSI_spec`: a short series yields `50`; the
constant series of fifteen `5`s yields `100`; a 15-element series with one
loss yields the `avgGain`/`avgLoss` formula. -/
theorem calculateRSI_spec_witness :
    (([1, 2] : List ℚ).length < 14 + 1 ∧ calculateRSI [1, 2] 14 = 50) ∧
    calculateRSI [5, 5, 5, 5, 5, 5, 5, 5, 5, 5, 5, 5, 5, 5, (5 : ℚ)] 14 = 100 ∧
    calculateRSI [2, 1, 1, 1, 1, 1, 1, 1, 1, 1, 1, 1, 1, 1, (1 : ℚ)] 14 =
      100 - 100 / (1 + avgGain [2, 1, 1, 1, 1, 1, 1, 1, 1, 1, 1, 1, 1, 1, (1 : ℚ)] 14 /
        avgLoss [2, 1, 1, 1, 1, 1, 1, 1, 1, 1, 1, 1, 1, 1, (1 : ℚ)] 14) := by
  refine ⟨⟨by norm_num, (calculateRSI_spec [1, 2] 14).1 (by norm_num)⟩, ?_, ?_⟩
  · exact (calculateRSI_spec _ 14).2.1 (by norm_num) (by norm_num)
      (by norm_num [changesOf, sliceNeg])
  · exact (calculateRSI_spec _ 14).2.2 (by norm_num) (by norm_num)
      (by norm_num [changesOf, sliceNeg])

/-- Claim C4: `calculateSMA` returns the last element when the input is
non-empty and shorter than `period`, and the arithmetic mean of the
trailing `period` elements when the input has at least `period`
elements. -/
theorem calculateSMA_spec (prices : List ℚ) (period : ℕ) :
    (∀ h : prices ≠ [], prices.length < period →
      calculateSMA prices period = prices.getLast h) ∧
    (0 < period → period ≤ prices.length →
      calculateSMA prices period = trailingMean prices period) := by
  constructor
  · intro h hlen
    rw [calculateSMA, if_pos hlen, List.getLast?_eq_getLast _ h, Option.getD_some]
  · intro hp hlen
    rw [calculateSMA, if_neg (not_lt.mpr hlen), trailingMean,
      sum_reverse_take _ _ (by omega)]

/-- Witness for `calculateSMA_spec`: `[1,2,3]` with period 5 gives the
last element `3`; `[1,2,3,4,5]` with period 3 gives the trailing mean,
which evaluates to `4` (the example in the claim). -/
theorem calculateSMA_spec_witness :
    (([1, 2, 3] : List ℚ) ≠ [] ∧ ([1, 2, 3] : List ℚ).length < 5 ∧
      calculateSMA [1, 2, 3] 5 = ([1, 2, 3] : List ℚ).getLast (by simp)) ∧
    (calculateSMA [1, 2, 3, 4, 5] 3 = trailingMean [1, 2, 3, 4, 5] 3 ∧
      trailingMean [1, 2, 3, 4, (5 : ℚ)] 3 = 4) := by
  refine ⟨⟨by simp, by norm_num,
    (calculateSMA_spec [1, 2, 3] 5).1 (by simp) (by norm_num)⟩,
    (calculateSMA_spec [1, 2, 3, 4, 5] 3).2 (by norm_num) (by norm_num),
    by norm_num [trailingMean]⟩

/-- Claim C5 counterexample: for the non-empty list `[0, 2]` and the
default period `20`, the upper band is not
`middle + 2 * popStdDev(last 20 closes)`: the code centres the variance at
the short-series SMA (the last element, `2`) and divides by `period`,
giving `√(1/5)` where the population standard deviation of `[0, 2]` is
`1`. -/
theorem bollingerBands_popStdDev_counterexample :
    (calculateBollingerBands [0, 2] 20).upper ≠
      (calculateBollingerBands [0, 2] 20).middle +
        2 * popStdDev (sliceNeg [0, 2] 20) := by
  have h4 : sliceNeg ([0, 2] : List ℚ) 20 = [0, 2] := by norm_num [sliceNeg]
  have h1 : calculateSMA [0, 2] 20 = 2 := by norm_num [calculateSMA]
  have h2 : bollVariance [0, 2] 20 = 1 / 5 := by
    norm_num [bollVariance, h4, h1]
  have h3 : popVariance [0, 2] = 1 := by norm_num [popVariance]
  have h5 : Real.sqrt ((1 / 5 : ℚ) : ℝ) < 1 := by
    have := Real.sqrt_lt_sqrt (x := (1 / 5 : ℝ)) (y := 1) (by norm_num) (by norm_num)
    rw [Real.sqrt_one] at this
    push_cast
    exact this
  unfold calculateBollingerBands popStdDev
  rw [h2, h4, h3]
  intro heq
  have h6 : (2 : ℝ) * Real.sqrt ((1 / 5 : ℚ) : ℝ) = 2 * Real.sqrt ((1 : ℚ) : ℝ) := by
    linarith
  rw [show (((1 : ℚ) : ℝ)) = (1 : ℝ) by norm_num, Real.sqrt_one] at h6
  linarith

/-- Claim C5 (amended): for every non-empty list of closes and every
period, the bands satisfy `upper ≥ middle ≥ lower` and
`middle = sma(closes, period)`; the clause
`upper/lower = middle ± 2 * popStdDev(last period closes)` holds when the
list has at least `period > 0` elements (for shorter lists the code's
variance is not the population variance, see the counterexample). -/
theorem bollingerBands_spec (closes : List ℚ) (period : ℕ) :
    (closes ≠ [] →
      (calculateBollingerBands closes period).lower ≤
        (calculateBollingerBands closes period).middle ∧
      (calculateBollingerBands closes period).middle ≤
        (calculateBollingerBands closes period).upper ∧
      (calculateBollingerBands closes period).middle =
        (calculateSMA closes period : ℝ)) ∧
    (0 < period → period ≤ closes.length →
      (calculateBollingerBands closes period).upper =
        (calculateBollingerBands closes period).middle +
          2 * popStdDev (sliceNeg closes period) ∧
      (calculateBollingerBands closes period).lower =
        (calculateBollingerBands closes period).middle -
          2 * popStdDev (sliceNeg closes period)) := by
  constructor
  · intro _
    have h := Real.sqrt_nonneg ((bollVariance closes period : ℚ) : ℝ)
    refine ⟨?_, ?_, rfl⟩ <;> simp only [calculateBollingerBands] <;> linarith
  · intro hp hlen
    have hl : (sliceNeg closes period).length = period :=
      sliceNeg_length_of_le closes (by omega) hlen
    have hsma : calculateSMA closes period = (sliceNeg closes period).sum / period := by
      rw [calculateSMA, if_neg (not_lt.mpr hlen)]
    have hvar : bollVariance closes period = popVariance (sliceNeg closes period) := by
      rw [bollVariance, popVariance, hl, hsma]
    unfold calculateBollingerBands popStdDev
    rw [hvar]
    exact ⟨rfl, rfl⟩

/-- Witness for `bollingerBands_spec` at `closes = [1, 2, 3]`,
`period = 2`. -/
theorem bollingerBands_spec_witness :
    (([1, 2, 3] : List ℚ) ≠ [] ∧ 0 < 2 ∧ 2 ≤ ([1, 2, 3] : List ℚ).length) ∧
    ((calculateBollingerBands [1, 2, 3] 2).lower ≤
        (calculateBollingerBands [1, 2, 3] 2).middle ∧
      (calculateBollingerBands [1, 2, 3] 2).middle ≤
        (calculateBollingerBands [1, 2, 3] 2).upper ∧
      (calculateBollingerBands [1, 2, 3] 2).middle =
        (calculateSMA [1, 2, 3] 2 : ℝ)) ∧
    ((calculateBollingerBands [1, 2, 3] 2).upper =
        (calculateBollingerBands [1, 2, 3] 2).middle +
          2 * popStdDev (sliceNeg [1, 2, 3] 2) ∧
      (calculateBollingerBands [1, 2, 3] 2).lower =
        (calculateBollingerBands [1, 2, 3] 2).middle -
          2 * popStdDev (sliceNeg [1, 2, 3] 2)) :=
  ⟨⟨by simp, by norm_num, by norm_num⟩,
    (bollingerBands_spec [1, 2, 3] 2).1 (by simp),
    (bollingerBands_spec [1, 2, 3] 2).2 (by norm_num) (by norm_num)⟩

theorem scoreSignals_cases (f : Features) :
    ((scoreSignals f).2 = 2 ∧ |(scoreSignals f).1| ≤ 3) ∨
    ((scoreSignals f).2 = 3 ∧ |(scoreSignals f).1| ≤ 4) := by
  unfold scoreSignals volatilityStep volumeStep trendStep rsiStep
  split_ifs <;> norm_num [abs_le]

theorem round_percent_bounds {q : ℚ} (h0 : 0 ≤ q) (h1 : q ≤ 3 / 4) :
    0 ≤ round (q * 100) ∧ round (q * 100) ≤ 75 := by
  rw [round_eq]
  constructor
  · exact Int.le_floor.mpr (by push_cast; linarith)
  · have h : ⌊q * 100 + 1 / 2⌋ < 76 := Int.floor_lt.mpr (by push_cast; linarith)
    omega

/-- Claim C10: for every input series and both timeframes the scorer's
`signals` counter is `2` or `3`, and the integer confidence returned by
`makePrediction` lies between `0` and `75` inclusive. -/
theorem makePrediction_confidence_bounds (stockData : List Bar) (tf : Timeframe) :
    ((scoreSignals (analyzeStock stockData)).2 = 2 ∨
      (scoreSignals (analyzeStock stockData)).2 = 3) ∧
    0 ≤ (makePrediction stockData tf).2 ∧ (makePrediction stockData tf).2 ≤ 75 := by
  have key : ∀ f : Features, ((scoreSignals f).2 = 2 ∨ (scoreSignals f).2 = 3) ∧
      0 ≤ (makePredictionCore f tf).2 ∧ (makePredictionCore f tf).2 ≤ 75 := by
    intro f
    have h2 : (makePredictionCore f tf).2 =
        round ((if tf = Timeframe.today then
            min (|(scoreSignals f).1| / (((scoreSignals f).2 : ℚ) * 2)) 1 * (8 / 10)
          else
            min (|(scoreSignals f).1| / (((scoreSignals f).2 : ℚ) * 2)) 1) * 100) := rfl
    have hconf : 0 ≤ min (|(scoreSignals f).1| / (((scoreSignals f).2 : ℚ) * 2)) 1 ∧
        min (|(scoreSignals f).1| / (((scoreSignals f).2 : ℚ) * 2)) 1 ≤ 3 / 4 := by
      rcases scoreSignals_cases f with ⟨hn, hs⟩ | ⟨hn, hs⟩ <;>
        rw [hn] <;>
        push_cast <;>
        constructor
      · exact le_min (by positivity) (by norm_num)
      · exact le_trans (min_le_left _ _) (by linarith)
      · exact le_min (by positivity) (by norm_num)
      · exact le_trans (min_le_left _ _) (by linarith)
    constructor
    · rcases scoreSignals_cases f with ⟨hn, _⟩ | ⟨hn, _⟩
      · exact Or.inl hn
      · exact Or.inr hn
    · rw [h2]
      cases tf
      · simp only [eq_self_iff_true, if_true]
        exact round_percent_bounds (by nlinarith [hconf.1, hconf.2]) (by nlinarith [hconf.1, hconf.2])
      · rw [if_neg (by simp)]
        exact round_percent_bounds hconf.1 hconf.2
  exact key (analyzeStock stockData)

/-! ## The in-memory cache (`setCachedData`) -/

/-- A cache entry: `{ data, timestamp }`. -/
structure CacheEntry (α : Type*) where
  data : α
  timestamp : ℤ
deriving DecidableEq

/-- JS `Map.set`: update in place when the key exists (keeping its
insertion position), otherwise append at the end. -/
def mapSet {α : Type*} (m : List (String × α)) (k : String) (v : α) :
    List (String × α) :=
  if k ∈ m.map Prod.fst then m.map (fun p => if p.1 = k then (k, v) else p)
  else m ++ [(k, v)]

/-- JS `Map.delete`: remove the entry with the given key. -/
def mapDelete {α : Type*} (m : List (String × α)) (k : String) :
    List (String × α) :=
  m.eraseP (fun p => decide (p.1 = k))

/-- `setCachedData` from `predict.ts`: `cache.set(key, {data, timestamp})`,
then if `cache.size > 100` delete `Array.from(cache.keys())[0]`, the
insertion-order-first key. -/
def setCachedData {α : Type*} (m : List (String × CacheEntry α)) (k : String)
    (data : α) (now : ℤ) : List (String × CacheEntry α) :=
  if 100 < (mapSet m k ⟨data, now⟩).length then
    match (mapSet m k ⟨data, now⟩).head? with
    | some p => mapDelete (mapSet m k ⟨data, now⟩) p.1
    | none => mapSet m k ⟨data, now⟩
  else mapSet m k ⟨data, now⟩

/-- Claim C8: starting from any cache with at most 100 entries, the size
after `setCachedData` is still at most 100, and an insertion of a fresh
key into a full cache evicts exactly the insertion-order-oldest entry
(FIFO): the result is the old cache minus its first entry, plus the new
entry at the end. -/
theorem setCachedData_cap {α : Type*} (m : List (String × CacheEntry α))
    (k : String) (data : α) (now : ℤ) (hm : m.length ≤ 100) :
    (setCachedData m k data now).length ≤ 100 ∧
    (m.length = 100 → k ∉ m.map Prod.fst →
      setCachedData m k data now = m.tail ++ [(k, ⟨data, now⟩)]) := by
  by_cases hmem : k ∈ m.map Prod.fst
  · have h1 : mapSet m k ⟨data, now⟩ =
        m.map (fun p => if p.1 = k then (k, ⟨data, now⟩) else p) := by
      rw [mapSet, if_pos hmem]
    constructor
    · rw [setCachedData, h1, if_neg (by rw [List.length_map]; omega), List.length_map]
      exact hm
    · intro _ hnot
      exact absurd hmem hnot
  · have h1 : mapSet m k ⟨data, now⟩ = m ++ [(k, ⟨data, now⟩)] := by
      rw [mapSet, if_neg hmem]
    by_cases hlen : m.length + 1 ≤ 100
    · constructor
      · rw [setCachedData, h1, if_neg (by simp; omega), List.length_append]
        simp
        omega
      · intro h100 _
        omega
    · have h100 : m.length = 100 := by omega
      match m, h100 with
      | hd :: t, h100 =>
        have h2 : mapSet (hd :: t) k ⟨data, now⟩ = hd :: (t ++ [(k, ⟨data, now⟩)]) := by
          rw [h1]; rfl
        have hdel : mapDelete (hd :: (t ++ [(k, ⟨data, now⟩)])) hd.1 =
            t ++ [(k, ⟨data, now⟩)] := by
          rw [mapDelete, List.eraseP_cons_of_pos]
          simp
        have hres : setCachedData (hd :: t) k data now = t ++ [(k, ⟨data, now⟩)] := by
          rw [setCachedData, h2]
          rw [if_pos (by simp at h100 ⊢; omega)]
          simp only [List.head?_cons]
          exact hdel
        refine ⟨?_, fun _ _ => hres⟩
        rw [hres, List.length_append]
        simp at h100 ⊢
        omega

/-- Witness for `setCachedData_cap`: a one-entry cache. -/
theorem setCachedData_cap_witness :
    (([("A", ⟨0, 0⟩)] : List (String × CacheEntry ℤ)).length ≤ 100) ∧
    (setCachedData [("A", (⟨0, 0⟩ : CacheEntry ℤ))] "B" 1 5).length ≤ 100 :=
  ⟨by norm_num,
    (setCachedData_cap [("A", (⟨0, 0⟩ : CacheEntry ℤ))] "B" 1 5 (by norm_num)).1⟩

/-! ## Synthetic series generator (`generateDemoData`)

`Math.random()` is modelled by an injected stream `rand : ℕ → ℚ` of draws
in `[0, 1)`: the source draws once before the loop (index `0`) and six
times in iteration `i` (indices `1 + 6*i` through `6 + 6*i`, in source
order).  `Math.sin` is modelled by an arbitrary injected `sin : ℚ → ℚ`.
`Date.now()` is modelled by the day number `nowDay`; the bar for loop
index `i` is dated `nowDay - (99 - i)`. -/

/-- `STOCK_BASE_PRICES` from `predict.ts`. -/
def STOCK_BASE_PRICES : List (String × ℚ) :=
  [("AAPL", 175), ("MSFT", 350), ("GOOGL", 140), ("AMZN", 155), ("TSLA", 250),
   ("NVDA", 800), ("META", 350), ("NFLX", 450), ("BABA", 90), ("V", 270),
   ("RELIANCE", 2800), ("TCS", 3500), ("HDFCBANK", 1600), ("INFY", 1800),
   ("HINDUNILVR", 2400), ("ITC", 450), ("SBIN", 750), ("BHARTIARTL", 1200),
   ("KOTAKBANK", 1800), ("LT", 3200), ("ASIANPAINT", 3000), ("MARUTI", 11000)]

/-- `STOCK_BASE_PRICES[symbol] || 150`. -/
def basePriceOf (symbol : String) : ℚ :=
  (STOCK_BASE_PRICES.lookup symbol).getD 150

/-- The per-iteration volatility constant (it only depends on the
symbol): `0.05` for symbols containing `CRYPTO`, `0.03` for symbols
starting with `TESLA` or `NVDA`, else `0.02`. -/
def volatilityOf (symbol : String) : ℚ :=
  if "CRYPTO".data <:+: symbol.data then 5 / 100
  else if "TESLA".data <+: symbol.data ∨ "NVDA".data <+: symbol.data then 3 / 100
  else 2 / 100

/-- The symbol-dependent base volume: `5000000` for `RELIANCE*`,
`50000000` for `AAPL*`, else `2000000`. -/
def baseVolumeOf (symbol : String) : ℚ :=
  if "RELIANCE".data <+: symbol.data then 5000000
  else if "AAPL".data <+: symbol.data then 50000000
  else 2000000

/-- The walked price of iteration `i` after the `Math.max(basePrice, 1)`
floor: `basePrice * (1 + longTrend + shortTrend + randomWalk)` clamped to
at least `1`. -/
def demoPrice2 (symbol : String) (rand : ℕ → ℚ) (sin : ℚ → ℚ) (i : ℕ)
    (price : ℚ) : ℚ :=
  max (price * (1 + sin ((i : ℚ) * (5 / 100)) * (3 / 1000)
    + sin ((i : ℚ) * (2 / 10)) * (1 / 1000)
    + (rand (1 + 6 * i) - 1 / 2) * volatilityOf symbol)) 1

/-- `open` of iteration `i` before `toFixed(2)`. -/
def demoOpen (symbol : String) (rand : ℕ → ℚ) (sin : ℚ → ℚ) (i : ℕ)
    (price : ℚ) : ℚ :=
  demoPrice2 symbol rand sin i price * (1 + (rand (2 + 6 * i) - 1 / 2) * (5 / 1000))

/-- `close` of iteration `i` before `toFixed(2)`. -/
def demoClose (symbol : String) (rand : ℕ → ℚ) (sin : ℚ → ℚ) (i : ℕ)
    (price : ℚ) : ℚ :=
  demoPrice2 symbol rand sin i price * (1 + (rand (3 + 6 * i) - 1 / 2) * (5 / 1000))

/-- `high` of iteration `i` before `toFixed(2)`. -/
def demoHigh (symbol : String) (rand : ℕ → ℚ) (sin : ℚ → ℚ) (i : ℕ)
    (price : ℚ) : ℚ :=
  max (demoOpen symbol rand sin i price) (demoClose symbol rand sin i price) *
    (1 + rand (4 + 6 * i) * (5 / 1000) * 2)

/-- `low` of iteration `i` before `toFixed(2)`. -/
def demoLow (symbol : String) (rand : ℕ → ℚ) (sin : ℚ → ℚ) (i : ℕ)
    (price : ℚ) : ℚ :=
  min (demoOpen symbol rand sin i price) (demoClose symbol rand sin i price) *
    (1 - rand (5 + 6 * i) * (5 / 1000) * 2)

/-- `volume` of iteration `i` (`Math.floor` of the scaled base volume). -/
def demoVolume (symbol : String) (rand : ℕ → ℚ) (sin : ℚ → ℚ) (i : ℕ)
    (price : ℚ) : ℤ :=
  ⌊baseVolumeOf symbol *
    (1 + |demoClose symbol rand sin i price - demoOpen symbol rand sin i price| /
      demoOpen symbol rand sin i price * 5) *
    (1 / 2 + rand (6 + 6 * i))⌋

/-- The bar pushed in iteration `i` of the `generateDemoData` loop. -/
def demoBar (symbol : String) (nowDay : ℤ) (rand : ℕ → ℚ) (sin : ℚ → ℚ)
    (i : ℕ) (price : ℚ) : Bar where
  date := nowDay - (99 - (i : ℤ))
  open_ := round2 (demoOpen symbol rand sin i price)
  high := round2 (demoHigh symbol rand sin i price)
  low := round2 (demoLow symbol rand sin i price)
  close := round2 (demoClose symbol rand sin i price)
  volume := demoVolume symbol rand sin i price

/-- The `for (let i = 0; i < 100; i++)` loop of `generateDemoData`,
carrying the walked `basePrice` through the iterations. -/
def demoLoop (symbol : String) (nowDay : ℤ) (rand : ℕ → ℚ) (sin : ℚ → ℚ) :
    ℕ → ℕ → ℚ → List Bar
  | _, 0, _ => []
  | i, fuel + 1, price =>
    demoBar symbol nowDay rand sin i price ::
      demoLoop symbol nowDay rand sin (i + 1) fuel
        (demoPrice2 symbol rand sin i price)

/-- `generateDemoData` from `predict.ts`: the initial base price is the
table price perturbed by `0.9 + rand 0 * 0.2`, followed by 100 loop
iterations. -/
def generateDemoData (symbol : String) (nowDay : ℤ) (rand : ℕ → ℚ)
    (sin : ℚ → ℚ) : List Bar :=
  demoLoop symbol nowDay rand sin 0 100
    (basePriceOf symbol * (9 / 10 + rand 0 * (2 / 10)))

/-! Positivity of the generated prices. -/

theorem round2_pos {q : ℚ} (h : 1 / 200 ≤ q) : 0 < round2 q := by
  have h1 : (1 : ℤ) ≤ round (q * 100) := by
    rw [round_eq]
    exact Int.le_floor.mpr (by push_cast; linarith)
  have h2 : (1 : ℚ) ≤ (round (q * 100) : ℚ) := by exact_mod_cast h1
  rw [round2]
  linarith

theorem demoBar_pos (symbol : String) (nowDay : ℤ) (rand : ℕ → ℚ)
    (sin : ℚ → ℚ) (i : ℕ) (price : ℚ)
    (hr : ∀ n, 0 ≤ rand n ∧ rand n < 1) :
    0 < (demoBar symbol nowDay rand sin i price).open_ ∧
    0 < (demoBar symbol nowDay rand sin i price).high ∧
    0 < (demoBar symbol nowDay rand sin i price).low ∧
    0 < (demoBar symbol nowDay rand sin i price).close := by
  obtain ⟨h2a, h2b⟩ := hr (2 + 6 * i)
  obtain ⟨h3a, h3b⟩ := hr (3 + 6 * i)
  obtain ⟨h4a, h4b⟩ := hr (4 + 6 * i)
  obtain ⟨h5a, h5b⟩ := hr (5 + 6 * i)
  have hp2 : (1 : ℚ) ≤ demoPrice2 symbol rand sin i price := le_max_right _ _
  have hopen : (399 / 400 : ℚ) ≤ demoOpen symbol rand sin i price := by
    rw [demoOpen]; nlinarith
  have hclose : (399 / 400 : ℚ) ≤ demoClose symbol rand sin i price := by
    rw [demoClose]; nlinarith
  have hmax : (399 / 400 : ℚ) ≤
      max (demoOpen symbol rand sin i price) (demoClose symbol rand sin i price) :=
    le_trans hopen (le_max_left _ _)
  have hmin : (399 / 400 : ℚ) ≤
      min (demoOpen symbol rand sin i price) (demoClose symbol rand sin i price) :=
    le_min hopen hclose
  have hhigh : (399 / 400 : ℚ) ≤ demoHigh symbol rand sin i price := by
    rw [demoHigh]; nlinarith
  have hlow : (1 / 200 : ℚ) ≤ demoLow symbol rand sin i price := by
    rw [demoLow]; nlinarith
  exact ⟨round2_pos (by linarith), round2_pos (by linarith),
    round2_pos hlow, round2_pos (by linarith)⟩

theorem demoLoop_spec (symbol : String) (nowDay : ℤ) (rand : ℕ → ℚ)
    (sin : ℚ → ℚ) (hr : ∀ n, 0 ≤ rand n ∧ rand n < 1) :
    ∀ (fuel i : ℕ) (price : ℚ),
      (demoLoop symbol nowDay rand sin i fuel price).length = fuel ∧
      (demoLoop symbol nowDay rand sin i fuel price).map Bar.date =
        (List.range fuel).map (fun j : ℕ => nowDay - 99 + ((i : ℤ) + (j : ℤ))) ∧
      ∀ b ∈ demoLoop symbol nowDay rand sin i fuel price,
        0 < b.open_ ∧ 0 < b.high ∧ 0 < b.low ∧ 0 < b.close := by
  intro fuel
  induction fuel with
  | zero => intro i price; simp [demoLoop]
  | succ n ih =>
    intro i price
    obtain ⟨ihlen, ihdate, ihpos⟩ :=
      ih (i + 1) (demoPrice2 symbol rand sin i price)
    refine ⟨by simp [demoLoop, ihlen], ?_, ?_⟩
    · rw [demoLoop, List.map_cons, ihdate, List.range_succ_eq_map]
      rw [List.map_cons, List.map_map]
      congr 1
      · show nowDay - (99 - (i : ℤ)) = nowDay - 99 + ((i : ℤ) + ((0 : ℕ) : ℤ))
        push_cast
        ring
      · apply List.map_congr_left
        intro j _
        simp only [Function.comp_apply]
        push_cast
        ring
    · intro b hb
      rw [demoLoop, List.mem_cons] at hb
      rcases hb with rfl | hb
      · exact demoBar_pos symbol nowDay rand sin i price hr
      · exact ihpos b hb

/-- Claim C7: for every symbol and every draw of the injected random
source (all draws in `[0, 1)`), `generateDemoData` returns exactly 100
bars, dated the 100 consecutive days ending today (`nowDay`), with
strictly increasing dates and strictly positive open/high/low/close. -/
theorem generateDemoData_spec (symbol : String) (nowDay : ℤ) (rand : ℕ → ℚ)
    (sin : ℚ → ℚ) (hr : ∀ n, 0 ≤ rand n ∧ rand n < 1) :
    (generateDemoData symbol nowDay rand sin).length = 100 ∧
    (generateDemoData symbol nowDay rand sin).map Bar.date =
      (List.range 100).map (fun j : ℕ => nowDay - 99 + (j : ℤ)) ∧
    List.Chain' (· < ·) ((generateDemoData symbol nowDay rand sin).map Bar.date) ∧
    ∀ b ∈ generateDemoData symbol nowDay rand sin,
      0 < b.open_ ∧ 0 < b.high ∧ 0 < b.low ∧ 0 < b.close := by
  obtain ⟨hlen, hdate, hpos⟩ := demoLoop_spec symbol nowDay rand sin hr 100 0
    (basePriceOf symbol * (9 / 10 + rand 0 * (2 / 10)))
  have hdate' : (generateDemoData symbol nowDay rand sin).map Bar.date =
      (List.range 100).map (fun j : ℕ => nowDay - 99 + (j : ℤ)) := by
    rw [generateDemoData, hdate]
    apply List.map_congr_left
    intro j _
    push_cast
    ring
  refine ⟨hlen, hdate', ?_, hpos⟩
  rw [hdate']
  apply List.Pairwise.chain'
  rw [List.pairwise_map]
  exact (List.pairwise_lt_range 100).imp (fun h => by omega)

/-- Witness for `generateDemoData_spec`: the constant-zero random stream
(every draw is in `[0, 1)`) and the zero sine. -/
theorem generateDemoData_spec_witness :
    (∀ _n : ℕ, 0 ≤ (0 : ℚ) ∧ (0 : ℚ) < 1) ∧
    (generateDemoData "AAPL" 0 (fun _ => 0) (fun _ => 0)).length = 100 :=
  ⟨fun _ => ⟨le_refl 0, by norm_num⟩,
    (generateDemoData_spec "AAPL" 0 (fun _ => 0) (fun _ => 0)
      (fun _ => ⟨le_refl 0, by norm_num⟩)).1⟩

/-! ## Data acquisition (`fetchStockData`) and the request handler
(`handlePredict`)

The live Alpha Vantage fetch is modelled by its observable outcome: the
request threw (network error / timeout), the payload carried an
`Error Message`/`Note` marker, the payload had no `Time Series (Daily)`
entry, or it parsed to a series.  The cache interaction is modelled by an
optional pre-existing unexpired entry; `setCachedData`'s effect on the
cache is covered separately. -/

inductive FetchOutcome where
  | netError
  | apiError
  | missingSeries
  | live (data : List Bar)

/-- `fetchStockData` from `predict.ts`: cached data wins; with the `demo`
API key the synthetic series is used directly; otherwise every failure
outcome falls back to the synthetic series and only a parsed payload is
returned as-is. -/
def fetchStockData (cached : Option (List Bar)) (apiKeyIsDemo : Bool)
    (outcome : FetchOutcome) (demoData : List Bar) : List Bar :=
  match cached with
  | some d => d
  | none =>
    if apiKeyIsDemo then demoData
    else
      match outcome with
      | .live d => d
      | _ => demoData

/-- The symbol normalization at the top of `handlePredict`
(`const stockSymbol = symbol.toUpperCase()`), modelled on the character
list (JS and Lean agree on ASCII upper-casing). -/
def normalizeSymbol (s : String) : String := ⟨s.data.map Char.toUpper⟩

/-- Modelled from the spec: the "uppercase, trim" normalization the
specification describes (whitespace trimming modelled on the character
list). -/
def trimUpper (s : String) : String :=
  ⟨(((s.data.dropWhile Char.isWhitespace).reverse.dropWhile
      Char.isWhitespace).reverse).map Char.toUpper⟩

/-- The `PredictionResponse` interface. -/
structure PredictionResponse where
  symbol : String
  prediction : Pred
  confidence : ℤ
  accuracy : ℚ
  timeframe : Timeframe
  features : Features

/-- The observable result of `handlePredict`: a 400 validation rejection,
the 404 not-found response, or the JSON prediction response. -/
inductive HandlerResult where
  | validationError (msg : String)
  | notFound
  | ok (resp : PredictionResponse)

/-- `handlePredict` from `predict.ts`.  `symbol`/`timeframe` are the
request-body fields (absent fields are `none`; JS `!symbol` is true for an
absent or empty symbol, and an absent timeframe defaults to
`"tomorrow"`).  `accRand` is the `Math.random()` draw used for the
synthesized accuracy figure. -/
noncomputable def handlePredict (symbol : Option String)
    (timeframe : Option String) (cached : Option (List Bar))
    (apiKeyIsDemo : Bool) (outcome : FetchOutcome) (demoData : List Bar)
    (accRand : ℚ) : HandlerResult :=
  let tf := timeframe.getD "tomorrow"
  if symbol.getD "" = "" then HandlerResult.validationError "Stock symbol is required"
  else if ¬(tf = "today" ∨ tf = "tomorrow") then
    HandlerResult.validationError "Timeframe must be 'today' or 'tomorrow'"
  else
    let stockSymbol := normalizeSymbol (symbol.getD "")
    let stockData := fetchStockData cached apiKeyIsDemo outcome demoData
    if stockData.length = 0 then HandlerResult.notFound
    else
      let tfv := if tf = "today" then Timeframe.today else Timeframe.tomorrow
      let features := analyzeStock stockData
      let mp := makePrediction stockData tfv
      let accuracy0 : ℚ := 75 + accRand * 15
      let accuracy1 :=
        if tfv = Timeframe.today then accuracy0 * (85 / 100) else accuracy0
      HandlerResult.ok
        { symbol := stockSymbol
          prediction := mp.1
          confidence := mp.2
          accuracy := round2 accuracy1
          timeframe := tfv
          features := features }

/-- Claim C6: the handler rejects an absent/empty symbol and an
unrecognized timeframe as 400 validation errors; every failure of the
live fetch (network error, error/rate-limit marker, missing payload) is
absorbed by falling back to the synthetic series, so for a valid request
no fetch failure is ever surfaced: the handler still answers `ok`. -/
theorem handlePredict_error_spec :
    (∀ (tfo : Option String) (cached : Option (List Bar)) (akd : Bool)
        (outcome : FetchOutcome) (demo : List Bar) (acc : ℚ),
      handlePredict none tfo cached akd outcome demo acc =
        HandlerResult.validationError "Stock symbol is required" ∧
      handlePredict (some "") tfo cached akd outcome demo acc =
        HandlerResult.validationError "Stock symbol is required") ∧
    (∀ (s tfs : String) (cached : Option (List Bar)) (akd : Bool)
        (outcome : FetchOutcome) (demo : List Bar) (acc : ℚ),
      s ≠ "" → tfs ≠ "today" → tfs ≠ "tomorrow" →
      handlePredict (some s) (some tfs) cached akd outcome demo acc =
        HandlerResult.validationError "Timeframe must be 'today' or 'tomorrow'") ∧
    (∀ (outcome : FetchOutcome) (demo : List Bar),
      (∀ d, outcome ≠ FetchOutcome.live d) →
      fetchStockData none false outcome demo = demo) ∧
    (∀ (s tfs : String) (outcome : FetchOutcome) (demo : List Bar) (acc : ℚ),
      s ≠ "" → (tfs = "today" ∨ tfs = "tomorrow") →
      (∀ d, outcome ≠ FetchOutcome.live d) → demo ≠ [] →
      ∃ resp, handlePredict (some s) (some tfs) none false outcome demo acc =
        HandlerResult.ok resp) := by
  refine ⟨?_, ?_, ?_, ?_⟩
  · intro tfo cached akd outcome demo acc
    constructor <;> simp [handlePredict]
  · intro s tfs cached akd outcome demo acc hs htd htm
    simp only [handlePredict, Option.getD_some]
    rw [if_neg hs, if_pos (by rintro (h | h) <;> [exact htd h; exact htm h])]
  · intro outcome demo hout
    cases outcome with
    | live d => exact absurd rfl (hout d)
    | netError => rfl
    | apiError => rfl
    | missingSeries => rfl
  · intro s tfs outcome demo acc hs htf hout hdemo
    have hfetch : fetchStockData none false outcome demo = demo := by
      cases outcome with
      | live d => exact absurd rfl (hout d)
      | netError => rfl
      | apiError => rfl
      | missingSeries => rfl
    have hlen : ¬(demo.length = 0) := by simpa using hdemo
    simp only [handlePredict, Option.getD_some, hfetch, if_neg hs,
      if_neg (not_not_intro htf), if_neg hlen]
    exact ⟨_, rfl⟩

/-- Witness for `handlePredict_error_spec`. -/
theorem handlePredict_error_spec_witness :
    (handlePredict none none none true FetchOutcome.netError [] 0 =
      HandlerResult.validationError "Stock symbol is required") ∧
    (handlePredict (some "AAPL") (some "nextweek") none true
        FetchOutcome.netError [] 0 =
      HandlerResult.validationError "Timeframe must be 'today' or 'tomorrow'") ∧
    (fetchStockData none false FetchOutcome.netError [⟨0, 1, 1, 1, 1, 0⟩] =
      [⟨0, 1, 1, 1, 1, 0⟩]) ∧
    (∃ resp, handlePredict (some "AAPL") (some "tomorrow") none false
        FetchOutcome.netError [⟨0, 1, 1, 1, 1, 0⟩] 0 = HandlerResult.ok resp) :=
  ⟨(handlePredict_error_spec.1 none none true FetchOutcome.netError [] 0).1,
    handlePredict_error_spec.2.1 "AAPL" "nextweek" none true
      FetchOutcome.netError [] 0 (by decide) (by decide) (by decide),
    handlePredict_error_spec.2.2.1 FetchOutcome.netError _ (fun _ h => by cases h),
    handlePredict_error_spec.2.2.2 "AAPL" "tomorrow" FetchOutcome.netError _ 0
      (by decide) (Or.inr rfl) (fun _ h => by cases h) (by simp)⟩

/-- Claim C9 counterexample: the handler's normalization is
`toUpperCase` alone; on the symbol `" aapl"` (leading space) it yields
`" AAPL"`, not the trim-then-uppercase `"AAPL"` the claim describes. -/
theorem normalizeSymbol_no_trim_counterexample :
    normalizeSymbol " aapl" = " AAPL" ∧ trimUpper " aapl" = "AAPL" ∧
    normalizeSymbol " aapl" ≠ trimUpper " aapl" :=
  ⟨by decide, by decide, by decide⟩

/-- Claim C9 (amended): the Prediction Service normalizes the symbol by
uppercasing only — surrounding whitespace is preserved, no trim is
applied — before resolving the series and building the result: the
response's symbol is exactly the uppercased, untrimmed input. -/
theorem handlePredict_symbol_uppercase_only (s tfs : String)
    (outcome : FetchOutcome) (demo : List Bar) (acc : ℚ) (hs : s ≠ "")
    (htf : tfs = "today" ∨ tfs = "tomorrow") (hdemo : demo ≠ []) :
    ∃ resp, handlePredict (some s) (some tfs) none true outcome demo acc =
      HandlerResult.ok resp ∧ resp.symbol = normalizeSymbol s := by
  have hfetch : fetchStockData none true outcome demo = demo := rfl
  have hlen : ¬(demo.length = 0) := by simpa using hdemo
  simp only [handlePredict, Option.getD_some, hfetch, if_neg hs,
    if_neg (not_not_intro htf), if_neg hlen]
  exact ⟨_, rfl, rfl⟩

/-- Witness for `handlePredict_symbol_uppercase_only` at the
whitespace-laden symbol `" aapl"`: the response symbol is `" AAPL"`. -/
theorem handlePredict_symbol_uppercase_only_witness :
    (" aapl" ≠ "" ∧ ("tomorrow" = "today" ∨ "tomorrow" = "tomorrow") ∧
      ([(⟨0, 1, 1, 1, 1, 0⟩ : Bar)] ≠ [])) ∧
    ∃ resp, handlePredict (some " aapl") (some "tomorrow") none true
        FetchOutcome.netError [⟨0, 1, 1, 1, 1, 0⟩] 0 = HandlerResult.ok resp ∧
      resp.symbol = normalizeSymbol " aapl" :=
  ⟨⟨by decide, Or.inr rfl, by simp⟩,
    handlePredict_symbol_uppercase_only " aapl" "tomorrow" FetchOutcome.netError
      [⟨0, 1, 1, 1, 1, 0⟩] 0 (by decide) (Or.inr rfl) (by simp)⟩
end StockPredict
